import Mathlib

/-!
Shallow embedding of the `sources-database-populator` repository: the
in-memory source-type catalog (`source_types_db` package) and the
fixture-creating orchestration (`main` package, in both the sequential
and the concurrent run mode present in the repository).

Modelling conventions:
* Go maps are association lists with last-write-wins update; a missing key
  reads as the Go zero value (`mapLookupD`).
* A Go `nil` slice is `Option.none`, distinct from an allocated empty slice
  `some []`, because the code distinguishes the two (`== nil` checks).
* the `Intn` function of Go `math/rand` is `randIntn`: driven by an arbitrary natural seed,
  it returns some value in `[0, n)` and returns `none` exactly when its
  argument is `0`, the case in which the Go function panics.  A `none`
  result of a random-lookup function therefore models a runtime panic.
* The concurrent run mode is modelled twice, at the two granularities the
  claims need: a happens-before event model of one whole run (spawn and
  join edges of the goroutines and `sync.WaitGroup`s), and a small-step
  semantics of the `config.ConcurrentRequests` admission gate used by
  `sendCreationRequest`.
-/

namespace SourcesPopulator

/-- Lookup in an association list modelling a Go map (first binding wins;
bindings are unique because updates replace in place). -/
def mapLookup {α : Type} (m : List (String × α)) (k : String) : Option α :=
  match m with
  | [] => none
  | (k', v) :: rest => if k' = k then some v else mapLookup rest k

/-- Go map read: a missing key yields the zero value `d`. -/
def mapLookupD {α : Type} (m : List (String × α)) (k : String) (d : α) : α :=
  (mapLookup m k).getD d

/-- Go map write: replace the binding if the key is present, else append. -/
def mapInsert {α : Type} (m : List (String × α)) (k : String) (v : α) :
    List (String × α) :=
  match m with
  | [] => [(k, v)]
  | (k', v') :: rest =>
      if k' = k then (k, v) :: rest else (k', v') :: mapInsert rest k v

/-- Model of the `Intn` function of Go `math/rand`: driven by an arbitrary seed, it returns
some value in `[0, n)`; `Intn` panics when its argument is `0` (or negative,
unrepresentable here), modelled by `none`. -/
def randIntn (seed n : Nat) : Option Nat :=
  if n = 0 then none else some (seed % n)

/-! ## Data model of the `source_types_db` package -/

/-- Struct `ApplicationType` from `source_types_db`: an application type id together
with its compatible authentication kinds for one specific source type.  A Go
`nil` slice is `none`; an allocated (possibly empty) slice is `some`. -/
structure ApplicationType where
  Id : String
  CompatibleAuthentications : Option (List String)
deriving Repr, DecidableEq

/-- Struct `SourceType` from `source_types_db`. `CompatibleApplicationTypes` is a Go
map (`none` when the struct is a zero value, i.e. the map is nil). -/
structure SourceType where
  Id : String
  Name : String
  CompatibleAuthentications : Option (List String)
  CompatibleApplicationTypes : Option (List (String × ApplicationType))
deriving Repr, DecidableEq

/-- The Go zero value of `ApplicationType`. -/
def zeroApplicationType : ApplicationType := ⟨"", none⟩

/-- The Go zero value of `SourceType`. -/
def zeroSourceType : SourceType := ⟨"", "", none, none⟩

/-- The package-level mutable state of `source_types_db`: the `sourceNameId`
name-to-id map and the `sourceTypes` "database" map. -/
structure DbState where
  sourceNameId : List (String × String)
  sourceTypes : List (String × SourceType)
deriving Repr, DecidableEq

/-- The empty initial state of the package-level maps. -/
def emptyDb : DbState := ⟨[], []⟩

/-- Operation `SourceTypesDb.CreateSourceType`: record the name-to-id binding and store
a fresh `SourceType` whose other fields are zero values (overwriting any
entry already stored under that id). -/
def CreateSourceType (s : DbState) (sourceTypeId sourceTypeName : String) : DbState :=
  let st : SourceType := { zeroSourceType with Id := sourceTypeId, Name := sourceTypeName }
  { sourceNameId := mapInsert s.sourceNameId sourceTypeName sourceTypeId
    sourceTypes := mapInsert s.sourceTypes sourceTypeId st }

/-- Operation `SourceTypesDb.AddAuthenticationType`: append one authentication kind to
the (possibly zero-valued) source type stored under `sourceTypeId` and write
the struct back.  In Go, `append` on a `nil` slice allocates, hence `some`. -/
def AddAuthenticationType (s : DbState) (sourceTypeId authenticationType : String) : DbState :=
  let sourceType := mapLookupD s.sourceTypes sourceTypeId zeroSourceType
  let updated : SourceType := { sourceType with CompatibleAuthentications :=
    (some (sourceType.CompatibleAuthentications.getD [] ++ [authenticationType])) }
  { s with sourceTypes := mapInsert s.sourceTypes sourceTypeId updated }

/-- One iteration of the loop in `SourceTypesDb.AddCompatibleApplicationType`
for a single supported source-type name `sst`.

Mirrors the Go code exactly: the name is resolved through `sourceNameId`
(a missing name reads as the zero value `""`), the source type is fetched
(missing id reads as the zero `SourceType`), a `nil` application map is
allocated, and then:
* if the application type already exists under the source type, Go appends
  the new kinds to a local copy of the `ApplicationType` struct that is
  never stored back into the `CompatibleApplicationTypes` map, so the
  stored entry is unchanged and only `sourceTypes[sstId] = sourceType`
  (an observable no-op for that entry) is executed;
* otherwise a brand new entry is created whose authentication list is
  `supportedAuthenticationTypes[sourceType.Name]` (a Go map read: an
  absent key gives a `nil` slice). -/
def addCompatibleApplicationTypeStep (s : DbState) (applicationTypeId : String)
    (supportedAuthenticationTypes : List (String × Option (List String)))
    (sst : String) : DbState :=
  let sstId := mapLookupD s.sourceNameId sst ""
  let sourceType := mapLookupD s.sourceTypes sstId zeroSourceType
  let apps := sourceType.CompatibleApplicationTypes.getD []
  match mapLookup apps applicationTypeId with
  | some _ =>
      let updated : SourceType :=
        { sourceType with CompatibleApplicationTypes := some apps }
      { s with sourceTypes := mapInsert s.sourceTypes sstId updated }
  | none =>
      let newApp : ApplicationType :=
        ⟨applicationTypeId, mapLookupD supportedAuthenticationTypes sourceType.Name none⟩
      let updated : SourceType :=
        { sourceType with CompatibleApplicationTypes :=
            (some (mapInsert apps applicationTypeId newApp)) }
      { s with sourceTypes := mapInsert s.sourceTypes sstId updated }

/-- Operation `SourceTypesDb.AddCompatibleApplicationType`: iterate the step over all
supported source-type names. -/
def AddCompatibleApplicationType (s : DbState) (applicationTypeId : String)
    (supportedSourceTypes : List String)
    (supportedAuthenticationTypes : List (String × Option (List String))) : DbState :=
  supportedSourceTypes.foldl
    (fun st sst => addCompatibleApplicationTypeStep st applicationTypeId
      supportedAuthenticationTypes sst) s

/-- The sentinel returned by `GetRandomAuthenticationTypeForApplication` when
the stored authentication list is a `nil` slice. -/
def noAuthSentinel : String :=
  "cloud-meter-app-does-not-have-azure-or-google-supported-authentication-types"

/-- The compatible-authentication list stored for an (source type id,
application type id) pair, exactly as `GetRandomAuthenticationTypeForApplication`
reads it (zero values for missing keys). -/
def storedAppAuths (s : DbState) (sourceTypeId applicationTypeId : String) :
    Option (List String) :=
  (mapLookupD ((mapLookupD s.sourceTypes sourceTypeId
      zeroSourceType).CompatibleApplicationTypes.getD []) applicationTypeId
    zeroApplicationType).CompatibleAuthentications

/-- Operation `SourceTypesDb.GetRandomAuthenticationTypeForApplication`: look the pair
up (zero values for missing keys); if the stored list is a Go `nil` slice
return the fixed sentinel, otherwise draw `rand.Intn(len)` — which panics
(`none`) when the list is allocated but empty — and index into the list. -/
def GetRandomAuthenticationTypeForApplication (s : DbState)
    (sourceTypeId applicationTypeId : String) (seed : Nat) : Option String :=
  match storedAppAuths s sourceTypeId applicationTypeId with
  | none => some noAuthSentinel
  | some auths =>
      match randIntn seed auths.length with
      | none => none
      | some idx => some (auths.getD idx "")

/-- Operation `SourceTypesDb.GetRandomAuthenticationTypeForSource`: draw
`rand.Intn(len)` over the authentication list of the source type (a panic, i.e.
`none`, when the list is nil or empty) and index into the list. -/
def GetRandomAuthenticationTypeForSource (s : DbState) (sourceTypeId : String)
    (seed : Nat) : Option String :=
  let st := mapLookupD s.sourceTypes sourceTypeId zeroSourceType
  let auths := st.CompatibleAuthentications.getD []
  match randIntn seed auths.length with
  | none => none
  | some idx => some (auths.getD idx "")

/-- Operation `SourceTypesDb.GetRandomSourceType`: the `sourceTypesKeys` helper list is
the list of keys of the `sourceTypes` map; draw `rand.Intn(len)` over it
(a panic when the catalog is empty) and read the map at the drawn key. -/
def GetRandomSourceType (s : DbState) (seed : Nat) : Option SourceType :=
  let keys := s.sourceTypes.map Prod.fst
  match randIntn seed keys.length with
  | none => none
  | some idx => some (mapLookupD s.sourceTypes (keys.getD idx "") zeroSourceType)

/-- One source type as delivered by the remote `GET /source_types` feed. -/
structure RemoteSourceType where
  id : String
  name : String
  auths : List String
deriving Repr, DecidableEq

/-- The pure loop at the end of `getSourceTypes` (part_001, lines 243-255):
skip the `"rh-marketplace"` source type, otherwise create the source type
and append each authentication kind of its schema. -/
def loadSourceTypes (input : List RemoteSourceType) (s : DbState) : DbState :=
  input.foldl
    (fun st rst =>
      if rst.name = "rh-marketplace" then st
      else
        rst.auths.foldl (fun s' a => AddAuthenticationType s' rst.id a)
          (CreateSourceType st rst.id rst.name))
    s

/-- One call to `AddCompatibleApplicationType` as performed by
`getApplicationTypes` for one application type of the remote feed. -/
structure AttachCall where
  applicationTypeId : String
  supportedSourceTypes : List String
  supportedAuthenticationTypes : List (String × Option (List String))
deriving Repr, DecidableEq

/-- Run a sequence of `AddCompatibleApplicationType` calls (the loop at the
end of `getApplicationTypes`). -/
def runAttachCalls (s : DbState) (calls : List AttachCall) : DbState :=
  calls.foldl
    (fun st c => AddCompatibleApplicationType st c.applicationTypeId
      c.supportedSourceTypes c.supportedAuthenticationTypes) s

/-- Pure content of `SourceTypesDb.InitializeDatabase`: a source-type load
followed by a sequence of application-type attachments, from the empty
package state. -/
def buildCatalog (input : List RemoteSourceType) (calls : List AttachCall) : DbState :=
  runAttachCalls (loadSourceTypes input emptyDb) calls

/-- Consistency of the catalog with the source-type load input: every stored
entry is keyed by its own id and stems from a non-skipped input row, and
every name binding resolves to a stored key. -/
def CatalogConsistent (input : List RemoteSourceType) (s : DbState) : Prop :=
  (∀ p ∈ s.sourceTypes, p.2.Id = p.1 ∧
    ∃ r ∈ input, r.id = p.1 ∧ r.name = p.2.Name ∧ r.name ≠ "rh-marketplace") ∧
  (∀ q ∈ s.sourceNameId, q.2 ∈ s.sourceTypes.map Prod.fst)

/-- Weak catalog invariant that survives unresolved attachments: every stored
entry has a name that is either the zero value `""` (a phantom entry) or a
non-skipped input name. -/
def NamesFromInput (input : List RemoteSourceType) (s : DbState) : Prop :=
  ∀ p ∈ s.sourceTypes, p.2.Name = "" ∨
    ∃ r ∈ input, r.name = p.2.Name ∧ r.name ≠ "rh-marketplace"

/-! ## The `main` package: random payload fields -/

/-- Array `availabilityStatuses` (main package). -/
def availabilityStatuses : List String :=
  ["available", "in_progress", "partially_available", "unavailable"]

/-- Array `appCreationWorkflows` (main package). -/
def appCreationWorkflows : List String :=
  ["account_authorization", "manual_configuration"]

/-- Function `getRandomAppCreationWorkflow`: `rand.Intn(1)` indexed into
`appCreationWorkflows`. -/
def getRandomAppCreationWorkflow (seed : Nat) : Option String :=
  (randIntn seed 1).map (fun idx => appCreationWorkflows.getD idx "")

/-- Function `getRandomAvailabilityStatus`: `rand.Intn(3)` indexed into the 4-element
`availabilityStatuses` array. -/
def getRandomAvailabilityStatus (seed : Nat) : Option String :=
  (randIntn seed 3).map (fun idx => availabilityStatuses.getD idx "")

/-! ## The `main` package: authentication payloads (concurrent run mode) -/

/-- Struct `model.AuthenticationCreateRequest` as filled in by
`createAuthentications` (only the fields the code sets). -/
structure AuthenticationCreateRequest where
  AuthType : String
  Name : String
  Password : String
  ResourceType : String
  ResourceIDRaw : String
  Username : String
deriving Repr, DecidableEq

/-- The request literal built in `createAuthentications` from a generated
uuid `uid` and its arguments. -/
def createAuthenticationsRequest (uid authType resourceType resourceId : String) :
    AuthenticationCreateRequest :=
  { AuthType := authType
    Name := uid ++ "-name"
    Password := uid ++ "-password"
    ResourceType := resourceType
    ResourceIDRaw := resourceId
    Username := uid ++ "-username" }

/-- Function `createAuthentications` (concurrent run mode): uuid generation may fail
(`none`), otherwise the payload is built from its arguments. -/
def createAuthenticationsPayload (uid : Option String)
    (authType resourceType resourceId : String) : Option AuthenticationCreateRequest :=
  match uid with
  | none => none
  | some u => some (createAuthenticationsRequest u authType resourceType resourceId)

/-- One task of `createAuthenticationsSource` (concurrent run mode): draw a
compatible authentication type for `sourceTypeId` and build a `"Source"`
payload owned by `sourceId`. -/
def createAuthenticationsSourceTask (s : DbState) (seed : Nat) (uid : Option String)
    (sourceTypeId sourceId : String) : Option AuthenticationCreateRequest :=
  match GetRandomAuthenticationTypeForSource s sourceTypeId seed with
  | none => none
  | some authType => createAuthenticationsPayload uid authType "Source" sourceId

/-- The source-level authentication payload produced by the per-source
goroutine of the concurrent `main`: after `createSource` returns
`(sourceId, sourceTypeId)`, `main` invokes
`createAuthenticationsSource(tenant, sourceTypeId, sourceTypeId)` — passing
`sourceTypeId` in the `sourceId` parameter position. -/
def mainSourceAuthPayload (s : DbState) (seed : Nat) (uid : Option String)
    (sourceId sourceTypeId : String) : Option AuthenticationCreateRequest :=
  createAuthenticationsSourceTask s seed uid sourceTypeId sourceTypeId

/-! ## The `main` package: per-unit failure handling -/

/-- The outcome of the fallible stages of one creation unit: uuid
generation, JSON marshalling, `sendCreationRequest` (transport + status
check), and extraction of the id from the response body. -/
structure UnitOutcome where
  uidOk : Bool
  marshalOk : Bool
  sendOk : Bool
  unmarshalOk : Bool
deriving Repr, DecidableEq

/-- A unit succeeds when all of its stages succeed. -/
def unitSucceeds (o : UnitOutcome) : Bool :=
  o.uidOk && o.marshalOk && o.sendOk && o.unmarshalOk

/-- The counter contribution of one goroutine of the concurrent
`createRhcConnections`: each failing stage returns early without touching
`createdRhcConnectionsTotal`; only the full success path increments it. -/
def rhcConnectionTaskInc (o : UnitOutcome) : Nat :=
  if !o.uidOk then 0
  else if !o.marshalOk then 0
  else if !o.sendOk then 0
  else if !o.unmarshalOk then 0
  else 1

/-- The sequential `createSource` loop (`for i := 0; i < target;`): the
outcome list is the oracle of successive attempt outcomes; a failing
attempt executes `continue` without advancing `i`, a successful one
increments the counter and `i`.  Returns (attempts performed, counter). -/
def createSourceLoopSeq (target : Nat) (i : Nat) : List UnitOutcome → Nat × Nat
  | [] => (0, 0)
  | o :: rest =>
      if target ≤ i then (0, 0)
      else
        let r := createSourceLoopSeq target (if unitSucceeds o then i + 1 else i) rest
        (r.1 + 1, if unitSucceeds o then r.2 + 1 else r.2)

/-- A failing attempt outcome: the transport stage fails. -/
def transportFailure : UnitOutcome := ⟨true, true, false, true⟩

/-- A fully successful attempt outcome. -/
def fullSuccess : UnitOutcome := ⟨true, true, true, true⟩

/-! ## The concurrent run of `main`: happens-before event model

One run with 1 tenant, 1 source per tenant, 1 application per source,
1 authentication per resource, 0 endpoints and 0 rhc connections, against
an always-succeeding backend.  Each event is one observable action of one
goroutine; the `happensBefore` edges are exactly the program-order, spawn
and `sync.WaitGroup` join edges of the code. -/

/-- The events of the run. -/
inductive Ev
  | spawnSourceTask
  | sourceCreated
  | spawnAppTask
  | appCreated
  | incApplications
  | spawnAppAuthDetached
  | appTaskDone
  | spawnSourceAuthTask
  | sourceAuthInc
  | sourceAuthTaskDone
  | incSources
  | sourceTaskDone
  | reportRead
  | spawnAppAuthInner
  | appAuthInc
  | appAuthInnerDone
  | appAuthDone
deriving Repr, DecidableEq, BEq

/-- All events of the run. -/
def allRunEvents : List Ev :=
  [Ev.spawnSourceTask, Ev.sourceCreated, Ev.spawnAppTask, Ev.appCreated,
   Ev.incApplications, Ev.spawnAppAuthDetached, Ev.appTaskDone,
   Ev.spawnSourceAuthTask, Ev.sourceAuthInc, Ev.sourceAuthTaskDone,
   Ev.incSources, Ev.sourceTaskDone, Ev.reportRead, Ev.spawnAppAuthInner,
   Ev.appAuthInc, Ev.appAuthInnerDone, Ev.appAuthDone]

/-- The happens-before edges of the run.

Per-source goroutine (spawned by `main`, joined by the `wg.Wait` of `main`):
`createSource` succeeds, `createApplications` spawns one application
goroutine and joins it, `createAuthenticationsSource` spawns one
source-authentication goroutine and joins it, the endpoint and
rhc-connection loops are empty, the sources counter is incremented, the
goroutine ends.  The application goroutine creates the application,
increments the applications counter and then spawns
`createAuthenticationsApplication` with a bare `go` statement: nothing
joins that goroutine, so its only inbound edge is its spawn.  Inside it,
one application-authentication goroutine is spawned and joined. -/
def happensBefore : List (Ev × Ev) :=
  [(Ev.spawnSourceTask, Ev.sourceCreated),
   (Ev.sourceCreated, Ev.spawnAppTask),
   (Ev.spawnAppTask, Ev.appCreated),
   (Ev.appCreated, Ev.incApplications),
   (Ev.incApplications, Ev.spawnAppAuthDetached),
   (Ev.spawnAppAuthDetached, Ev.appTaskDone),
   (Ev.appTaskDone, Ev.spawnSourceAuthTask),
   (Ev.spawnSourceAuthTask, Ev.sourceAuthInc),
   (Ev.sourceAuthInc, Ev.sourceAuthTaskDone),
   (Ev.sourceAuthTaskDone, Ev.incSources),
   (Ev.incSources, Ev.sourceTaskDone),
   (Ev.sourceTaskDone, Ev.reportRead),
   (Ev.spawnAppAuthDetached, Ev.spawnAppAuthInner),
   (Ev.spawnAppAuthInner, Ev.appAuthInc),
   (Ev.appAuthInc, Ev.appAuthInnerDone),
   (Ev.appAuthInnerDone, Ev.appAuthDone)]

/-- Whether a linear order on the events respects every happens-before
edge. -/
def respectsHappensBefore (l : List Ev) : Bool :=
  happensBefore.all (fun p => decide (l.indexOf p.1 < l.indexOf p.2))

/-- A schedule is an interleaving of all events of the run that respects
every happens-before edge. -/
def ValidSchedule (l : List Ev) : Prop :=
  allRunEvents.Perm l ∧ respectsHappensBefore l = true

/-- Whether an event increments `createdAuthenticationsTotal`. -/
def isAuthInc (e : Ev) : Bool :=
  e == Ev.sourceAuthInc || e == Ev.appAuthInc

/-- The value of the authentications counter at the moment the final report
reads it: the number of authentication increments scheduled before
`reportRead`. -/
def authIncsBeforeReport (l : List Ev) : Nat :=
  (l.takeWhile (fun e => !(e == Ev.reportRead))).countP isAuthInc

/-- A schedule in which the detached `createAuthenticationsApplication`
goroutine runs entirely after `main` has read the final report. -/
def lateDetachedSchedule : List Ev :=
  [Ev.spawnSourceTask, Ev.sourceCreated, Ev.spawnAppTask, Ev.appCreated,
   Ev.incApplications, Ev.spawnAppAuthDetached, Ev.appTaskDone,
   Ev.spawnSourceAuthTask, Ev.sourceAuthInc, Ev.sourceAuthTaskDone,
   Ev.incSources, Ev.sourceTaskDone, Ev.reportRead, Ev.spawnAppAuthInner,
   Ev.appAuthInc, Ev.appAuthInnerDone, Ev.appAuthDone]

/-! ## `sendCreationRequest` (concurrent run mode) and the admission gate

The gate is `config.ConcurrentRequests`, declared in the config package as
`var ConcurrentRequests chan struct{}` and initialized by
`config.ParseConfig` with `make(chan struct{}, cap)`.  `GateStep` gives the
Go buffered-channel semantics for that channel: a send (the acquisition
`config.ConcurrentRequests <- struct{}{}`) blocks while `cap` values are
buffered, a receive (the release `<-config.ConcurrentRequests`) blocks
while none is. -/

/-- Constant `defaultConcurrentRequests` of the config package. -/
def defaultConcurrentRequests : Nat := 10

/-- Capacity with which `config.ParseConfig` initializes the
`ConcurrentRequests` channel, from the `CONCURRENT_REQUESTS` environment
variable: `none` models the unset variable (default capacity); `some none`
models a set value `strconv.Atoi` cannot parse, on which the process aborts
(`log.Fatalf`, result `none`); a parsed value below 1 falls back to the
default with a warning; otherwise the parsed value itself is used. -/
def concurrentRequestsCapacity : Option (Option Int) → Option Nat
  | none => some defaultConcurrentRequests
  | some none => none
  | some (some n) =>
      if n < 1 then some defaultConcurrentRequests else some n.toNat

/-- The gate-relevant actions of one `sendCreationRequest` invocation:
acquiring a slot (channel send), the outbound call starting and returning,
and releasing the slot (channel receive). -/
inductive GateOp
  | acq
  | callBegin
  | callEnd
  | rel
deriving Repr, DecidableEq, BEq

/-- The distinguishable outcomes of one `sendCreationRequest` invocation. -/
inductive ReqOutcome
  | newRequestErr
  | doErr
  | readBodyErr
  | closeBodyErr
  | badStatus
  | created
deriving Repr, DecidableEq

/-- The gate-op trace of `sendCreationRequest` for each outcome, read off
the code path by path: the slot is acquired first; if building the request
fails the slot is released and the function returns; otherwise the call is
issued, and the slot is released right after the call returns — both on the
transport-error path and on the path that goes on to read the body, close
it and check the status (none of which touch the gate). -/
def sendCreationRequestGateOps : ReqOutcome → List GateOp
  | ReqOutcome.newRequestErr => [GateOp.acq, GateOp.rel]
  | _ => [GateOp.acq, GateOp.callBegin, GateOp.callEnd, GateOp.rel]

/-- A gate system: the remaining gate-op list of every task, and the number
of values currently buffered in the channel. -/
abbrev GateSys := List (List GateOp) × Nat

/-- A task holds a gate slot: it has acquired (no `acq` remaining) and not
yet released (`rel` still remaining). -/
def holdsSlot (l : List GateOp) : Bool :=
  l.contains GateOp.rel && !(l.contains GateOp.acq)

/-- A task has a call in flight: the call has begun (no `callBegin`
remaining) and not yet returned (`callEnd` still remaining). -/
def inFlight (l : List GateOp) : Bool :=
  l.contains GateOp.callEnd && !(l.contains GateOp.callBegin)

/-- The remaining op lists a task can have: the suffixes of the two
`sendCreationRequestGateOps` traces. -/
def validRemainder (l : List GateOp) : Prop :=
  l = [] ∨ l = [GateOp.rel] ∨ l = [GateOp.acq, GateOp.rel] ∨
  l = [GateOp.callEnd, GateOp.rel] ∨
  l = [GateOp.callBegin, GateOp.callEnd, GateOp.rel] ∨
  l = [GateOp.acq, GateOp.callBegin, GateOp.callEnd, GateOp.rel]

/-- Small-step semantics of the gate with capacity `C`: any task may run its
next op; a channel send (`acq`) blocks unless fewer than `C` slots are
taken, a channel receive (`rel`) blocks unless some slot is taken; the call
itself does not touch the channel. -/
inductive GateStep (C : Nat) : GateSys → GateSys → Prop
  | acq (ts₁ ts₂ : List (List GateOp)) (l : List GateOp) (occ : Nat) (h : occ < C) :
      GateStep C (ts₁ ++ (GateOp.acq :: l) :: ts₂, occ) (ts₁ ++ l :: ts₂, occ + 1)
  | callBegin (ts₁ ts₂ : List (List GateOp)) (l : List GateOp) (occ : Nat) :
      GateStep C (ts₁ ++ (GateOp.callBegin :: l) :: ts₂, occ) (ts₁ ++ l :: ts₂, occ)
  | callEnd (ts₁ ts₂ : List (List GateOp)) (l : List GateOp) (occ : Nat) :
      GateStep C (ts₁ ++ (GateOp.callEnd :: l) :: ts₂, occ) (ts₁ ++ l :: ts₂, occ)
  | rel (ts₁ ts₂ : List (List GateOp)) (l : List GateOp) (occ : Nat) (h : 0 < occ) :
      GateStep C (ts₁ ++ (GateOp.rel :: l) :: ts₂, occ) (ts₁ ++ l :: ts₂, occ - 1)

/-- Reachability from the initial system in which every configured task is a
fresh `sendCreationRequest` invocation and the channel is empty. -/
def GateReachable (C : Nat) (outcomes : List ReqOutcome) (s : GateSys) : Prop :=
  Relation.ReflTransGen (GateStep C) (outcomes.map sendCreationRequestGateOps, 0) s

/-- The gate invariant: the remainder of every task is a trace suffix, and the
channel occupancy equals the number of slot-holding tasks and stays within
the capacity. -/
def GateInv (C : Nat) (s : GateSys) : Prop :=
  (∀ l ∈ s.1, validRemainder l) ∧
  s.2 = s.1.countP holdsSlot ∧ s.2 ≤ C

/-! ## Concrete catalog states used as inputs of the claims -/

/-- A one-source-type load: id `"1"`, name `"s"`, kinds `["token"]`. -/
def dbLoaded : DbState := loadSourceTypes [⟨"1", "s", ["token"]⟩] emptyDb

/-- State `dbLoaded` after attaching application type `"a"` to `"s"` with kinds
`["k1"]`. -/
def dbAttachedOnce : DbState :=
  AddCompatibleApplicationType dbLoaded "a" ["s"] [("s", some ["k1"])]

/-- State `dbAttachedOnce` after a second attachment of the same `("s", "a")` pair
with kinds `["k2"]`. -/
def dbAttachedTwice : DbState :=
  AddCompatibleApplicationType dbAttachedOnce "a" ["s"] [("s", some ["k2"])]

/-- State `dbLoaded` after an attachment whose per-name kinds are an allocated but
empty list (a present-but-empty JSON array in the remote feed). -/
def dbEmptyAllocated : DbState :=
  AddCompatibleApplicationType dbLoaded "a" ["s"] [("s", some [])]

/-- State `dbLoaded` after an attachment referencing a source-type name the
catalog never saw. -/
def dbPhantom : DbState :=
  AddCompatibleApplicationType dbLoaded "appX" ["unknown-name"] []

/-- The load input of the `GetRandomSourceType` counterexample. -/
def rangeInput : List RemoteSourceType := [⟨"1", "openshift", ["token"]⟩]

/-- State with `rangeInput` loaded, then one attachment referencing an unknown name. -/
def dbRange : DbState := buildCatalog rangeInput [⟨"a", ["bad"], []⟩]

/-! ## Association-list lemmas -/

theorem mapLookup_insert_self {α : Type} (m : List (String × α)) (k : String) (v : α) :
    mapLookup (mapInsert m k v) k = some v := by
  induction m with
  | nil => simp [mapInsert, mapLookup]
  | cons hd tl ih =>
      by_cases h : hd.1 = k
      · simp [mapInsert, h, mapLookup]
      · simp [mapInsert, h, mapLookup, ih]

theorem mapLookup_insert_ne {α : Type} (m : List (String × α)) (k k' : String) (v : α)
    (h : k' ≠ k) : mapLookup (mapInsert m k v) k' = mapLookup m k' := by
  induction m with
  | nil => simp [mapInsert, mapLookup, Ne.symm h]
  | cons hd tl ih =>
      by_cases hk : hd.1 = k
      · subst hk
        simp [mapInsert, mapLookup, Ne.symm h, h]
      · by_cases hk' : hd.1 = k' <;> simp [mapInsert, mapLookup, hk, hk', ih, h]

theorem mem_of_mapLookup {α : Type} {m : List (String × α)} {k : String} {v : α}
    (h : mapLookup m k = some v) : (k, v) ∈ m := by
  induction m with
  | nil => simp [mapLookup] at h
  | cons hd tl ih =>
      by_cases hk : hd.1 = k
      · rw [mapLookup, if_pos hk] at h
        obtain ⟨a, b⟩ := hd
        obtain rfl : a = k := hk
        obtain rfl : b = v := Option.some.inj h
        exact List.mem_cons_self _ _
      · rw [mapLookup, if_neg hk] at h
        exact List.mem_cons_of_mem _ (ih h)

theorem mem_mapInsert {α : Type} {m : List (String × α)} {k : String} {v : α} {p : String × α}
    (h : p ∈ mapInsert m k v) : p = (k, v) ∨ p ∈ m := by
  induction m with
  | nil => simpa [mapInsert] using h
  | cons hd tl ih =>
      by_cases hk : hd.1 = k
      · rw [mapInsert, if_pos hk] at h
        rcases List.mem_cons.mp h with h | h
        · exact Or.inl h
        · exact Or.inr (List.mem_cons_of_mem _ h)
      · rw [mapInsert, if_neg hk] at h
        rcases List.mem_cons.mp h with h | h
        · exact Or.inr (h ▸ List.mem_cons_self _ _)
        · rcases ih h with h | h
          · exact Or.inl h
          · exact Or.inr (List.mem_cons_of_mem _ h)

theorem keys_subset_keys_mapInsert {α : Type} {m : List (String × α)} {a : String}
    (k : String) (v : α) (h : a ∈ m.map Prod.fst) :
    a ∈ (mapInsert m k v).map Prod.fst := by
  induction m with
  | nil => simp at h
  | cons hd tl ih =>
      by_cases hk : hd.1 = k
      · rw [mapInsert, if_pos hk]
        simpa [hk] using h
      · rw [mapInsert, if_neg hk]
        rcases List.mem_map.mp h with ⟨p, hp, rfl⟩
        rcases List.mem_cons.mp hp with rfl | hp
        · exact List.mem_map_of_mem _ (List.mem_cons_self _ _)
        · simpa using Or.inr (by simpa using ih (List.mem_map_of_mem _ hp))

theorem key_mem_keys_mapInsert {α : Type} (m : List (String × α)) (k : String) (v : α) :
    k ∈ (mapInsert m k v).map Prod.fst := by
  induction m with
  | nil => simp [mapInsert]
  | cons hd tl ih =>
      by_cases hk : hd.1 = k
      · simp [mapInsert, hk]
      · rw [mapInsert, if_neg hk]
        simpa using Or.inr (by simpa using ih)

theorem mapLookup_isSome_of_mem_keys {α : Type} {m : List (String × α)} {k : String}
    (h : k ∈ m.map Prod.fst) : ∃ v, mapLookup m k = some v := by
  induction m with
  | nil => simp at h
  | cons hd tl ih =>
      by_cases hk : hd.1 = k
      · exact ⟨hd.2, by rw [mapLookup, if_pos hk]⟩
      · rcases List.mem_map.mp h with ⟨p, hp, rfl⟩
        rcases List.mem_cons.mp hp with rfl | hp
        · exact absurd rfl hk
        · rcases ih (List.mem_map_of_mem _ hp) with ⟨v, hv⟩
          exact ⟨v, by rw [mapLookup, if_neg hk]; exact hv⟩

theorem randIntn_lt {seed n idx : Nat} (h : randIntn seed n = some idx) : idx < n := by
  unfold randIntn at h
  by_cases hn : n = 0
  · simp [hn] at h
  · rw [if_neg hn] at h
    exact Option.some.inj h ▸ Nat.mod_lt _ (Nat.pos_of_ne_zero hn)

/-! ## Claim C9 -/

/-- Claim C9. For every random-source state, `getRandomAppCreationWorkflow`
returns `"account_authorization"`: `rand.Intn(1)` only ever yields `0`, so
the second declared workflow `"manual_configuration"` is never produced. -/
theorem getRandomAppCreationWorkflow_always_account_authorization (seed : Nat) :
    getRandomAppCreationWorkflow seed = some "account_authorization" := by
  simp [getRandomAppCreationWorkflow, randIntn, Nat.mod_one, appCreationWorkflows]

/-! ## Claim C10 -/

/-- Claim C10. For every random-source state, `getRandomAvailabilityStatus`
returns one of `"available"`, `"in_progress"` or `"partially_available"`:
the index is `rand.Intn(3)` over the 4-element status array, so a source
payload availability status is never `"unavailable"`. -/
theorem getRandomAvailabilityStatus_never_unavailable (seed : Nat) :
    (getRandomAvailabilityStatus seed = some "available" ∨
     getRandomAvailabilityStatus seed = some "in_progress" ∨
     getRandomAvailabilityStatus seed = some "partially_available") ∧
    getRandomAvailabilityStatus seed ≠ some "unavailable" := by
  have h3 : seed % 3 = 0 ∨ seed % 3 = 1 ∨ seed % 3 = 2 := by omega
  rcases h3 with h | h | h <;>
    simp [getRandomAvailabilityStatus, randIntn, h, availabilityStatuses]

/-- Evaluation of the C9 statement at a concrete seed. -/
theorem getRandomAppCreationWorkflow_witness :
    getRandomAppCreationWorkflow 7 = some "account_authorization" :=
  getRandomAppCreationWorkflow_always_account_authorization 7

/-- Evaluation of the C10 statement at a concrete seed. -/
theorem getRandomAvailabilityStatus_witness :
    (getRandomAvailabilityStatus 5 = some "available" ∨
     getRandomAvailabilityStatus 5 = some "in_progress" ∨
     getRandomAvailabilityStatus 5 = some "partially_available") ∧
    getRandomAvailabilityStatus 5 ≠ some "unavailable" :=
  getRandomAvailabilityStatus_never_unavailable 5

/-! ## Claim C1 -/

/-- Claim C1. Counter-evidence evaluation: after attaching application type
`"a"` to source type `"s"` (id `"1"`) twice, first with kinds `["k1"]` and
then with kinds `["k2"]`, the stored compatible-authentication list is still
`["k1"]` — the kinds of the second call are appended to a local struct copy that
`AddCompatibleApplicationType` never writes back — and `["k1"]` is not a
permutation of the concatenation `["k1", "k2"]` the claim requires. -/
theorem addCompatibleApplicationType_second_contribution_dropped :
    storedAppAuths dbAttachedTwice "1" "a" = some ["k1"] ∧
    ¬ (["k1"] : List String).Perm ["k1", "k2"] := by
  constructor
  · rfl
  · intro h
    exact absurd h.length_eq (by simp)

/-! ## Claim C7 -/

/-- Claim C7. Counter-evidence evaluation: with catalog `dbLoaded` (source
type id `"1"`), a source creation that returned id `"100"`, and a fresh
uuid, the source-level authentication payload built by the concurrent
`main` carries resource type `"Source"` but resource id `"1"` — the source
type id, not the id `"100"` of the created source — because `main` passes
`sourceTypeId` in the `sourceId` argument position. -/
theorem mainSourceAuthPayload_uses_sourceTypeId :
    ∃ req, mainSourceAuthPayload dbLoaded 0 (some "u0") "100" "1" = some req ∧
      req.ResourceType = "Source" ∧ req.ResourceIDRaw = "1" ∧ req.ResourceIDRaw ≠ "100" := by
  refine ⟨createAuthenticationsRequest "u0" "token" "Source" "1", rfl, rfl, rfl, by decide⟩

/-! ## Claim C2 -/

/-- Claim C2. Counterexample: in `dbEmptyAllocated` the pair `("1", "a")`
stores an allocated but empty authentication list (`some []`), and
`GetRandomAuthenticationTypeForApplication` does not return the sentinel
there: it runs `rand.Intn(0)`, which panics (modelled by `none`), because
the code only guards against a `nil` list, not an empty one. -/
theorem getRandomAuthForApplication_empty_allocated_panics :
    storedAppAuths dbEmptyAllocated "1" "a" = some [] ∧
    GetRandomAuthenticationTypeForApplication dbEmptyAllocated "1" "a" 0 = none ∧
    (none : Option String) ≠ some noAuthSentinel := by
  refine ⟨rfl, rfl, by decide⟩

/-- Claim C2, amended. For every catalog state and pair of ids: if the stored
list is a `nil` slice the function returns the sentinel without error; if
the list is allocated but empty the function panics in `rand.Intn(0)`
(modelled by `none`) instead of returning the sentinel; if the list is
non-empty the function returns one of its elements. -/
theorem getRandomAuthForApplication_amended (s : DbState)
    (sourceTypeId applicationTypeId : String) (seed : Nat) :
    (storedAppAuths s sourceTypeId applicationTypeId = none →
      GetRandomAuthenticationTypeForApplication s sourceTypeId applicationTypeId seed =
        some noAuthSentinel) ∧
    (storedAppAuths s sourceTypeId applicationTypeId = some [] →
      GetRandomAuthenticationTypeForApplication s sourceTypeId applicationTypeId seed = none) ∧
    (∀ l, storedAppAuths s sourceTypeId applicationTypeId = some l → l ≠ [] →
      ∃ x ∈ l,
        GetRandomAuthenticationTypeForApplication s sourceTypeId applicationTypeId seed =
          some x) := by
  refine ⟨?_, ?_, ?_⟩
  · intro h
    simp [GetRandomAuthenticationTypeForApplication, h]
  · intro h
    simp [GetRandomAuthenticationTypeForApplication, h, randIntn]
  · intro l h hne
    have hpos : 0 < l.length := List.length_pos.mpr hne
    have hlt : seed % l.length < l.length := Nat.mod_lt _ hpos
    refine ⟨l.getD (seed % l.length) "", ?_, ?_⟩
    · rw [List.getD_eq_getElem l "" hlt]
      exact List.getElem_mem hlt
    · simp [GetRandomAuthenticationTypeForApplication, h, randIntn, hne]

/-- Evaluation of the amended C2 statement at concrete inputs: the `nil`
case returns the sentinel and the non-empty case returns an element. -/
theorem getRandomAuthForApplication_amended_witness :
    GetRandomAuthenticationTypeForApplication dbLoaded "1" "a" 0 = some noAuthSentinel ∧
    ∃ x ∈ ["k1"],
      GetRandomAuthenticationTypeForApplication dbAttachedOnce "1" "a" 3 = some x :=
  ⟨(getRandomAuthForApplication_amended dbLoaded "1" "a" 0).1 rfl,
   (getRandomAuthForApplication_amended dbAttachedOnce "1" "a" 3).2.2 ["k1"] rfl (by decide)⟩

/-! ## Claim C5 -/

/-- Claim C5. Counterexample: attaching application type `"appX"` with the
unresolved supported source name `"unknown-name"` is not skipped — the name
resolves to the zero id `""` and a brand-new phantom entry keyed `""` is
inserted into the `sourceTypes` map (it was absent before the call). -/
theorem addCompatibleApplicationType_unresolved_creates_phantom :
    mapLookup dbLoaded.sourceTypes "" = none ∧
    mapLookup dbPhantom.sourceTypes "" =
      some { Id := "", Name := "", CompatibleAuthentications := none,
             CompatibleApplicationTypes := some [("appX", ⟨"appX", none⟩)] } := by
  exact ⟨rfl, rfl⟩

/-- Claim C5, amended. For every state and every supported source name that
does not resolve, the per-name step of `AddCompatibleApplicationType` leaves
all catalog entries with a non-empty key unchanged but inserts (or updates)
a phantom entry under the zero key `""`, under which the application type is
recorded — the unresolved name is not skipped. -/
theorem addCompatibleApplicationTypeStep_unresolved (s : DbState)
    (applicationTypeId : String)
    (supportedAuthenticationTypes : List (String × Option (List String)))
    (name : String) (h : mapLookup s.sourceNameId name = none) :
    (∀ k, k ≠ "" →
      mapLookup (addCompatibleApplicationTypeStep s applicationTypeId
        supportedAuthenticationTypes name).sourceTypes k = mapLookup s.sourceTypes k) ∧
    (∃ e, mapLookup (addCompatibleApplicationTypeStep s applicationTypeId
        supportedAuthenticationTypes name).sourceTypes "" = some e ∧
      (mapLookup (e.CompatibleApplicationTypes.getD []) applicationTypeId).isSome) := by
  have hid : mapLookupD s.sourceNameId name "" = "" := by
    simp [mapLookupD, h]
  have hshape : ∃ e : SourceType,
      (addCompatibleApplicationTypeStep s applicationTypeId supportedAuthenticationTypes
        name).sourceTypes = mapInsert s.sourceTypes "" e ∧
      (mapLookup (e.CompatibleApplicationTypes.getD []) applicationTypeId).isSome := by
    simp only [addCompatibleApplicationTypeStep, hid]
    split
    · next a heq => exact ⟨_, rfl, by simp [heq]⟩
    · next heq => exact ⟨_, rfl, by simp [mapLookup_insert_self]⟩
  obtain ⟨e, he, happ⟩ := hshape
  rw [he]
  exact ⟨fun k hk => mapLookup_insert_ne _ _ _ _ hk,
    ⟨e, mapLookup_insert_self _ _ _, happ⟩⟩

/-- Evaluation of the amended C5 statement at a concrete input. -/
theorem addCompatibleApplicationTypeStep_unresolved_witness :
    mapLookup (addCompatibleApplicationTypeStep dbLoaded "appX" [] "unknown-name").sourceTypes
      "1" = mapLookup dbLoaded.sourceTypes "1" ∧
    ∃ e, mapLookup (addCompatibleApplicationTypeStep dbLoaded "appX" []
        "unknown-name").sourceTypes "" = some e ∧
      (mapLookup (e.CompatibleApplicationTypes.getD []) "appX").isSome :=
  ⟨(addCompatibleApplicationTypeStep_unresolved dbLoaded "appX" [] "unknown-name" rfl).1
      "1" (by decide),
   (addCompatibleApplicationTypeStep_unresolved dbLoaded "appX" [] "unknown-name" rfl).2⟩

/-! ## Claim C8 -/

/-- Claim C8. Counterexample: the sequential `createSource` loop configured
for a single source, facing a transport failure on the first attempt and
success on the second, performs **two** creation attempts — the failing
attempt executes `continue` without advancing the loop index, so the same
logical unit is retried instead of being abandoned after a single attempt. -/
theorem createSource_sequential_retries :
    createSourceLoopSeq 1 0 [transportFailure, fullSuccess] = (2, 1) ∧ ¬ (2 ≤ 1) := by
  exact ⟨rfl, by decide⟩

/-- Claim C8, amended. In the concurrent run mode a failing creation task is
abandoned after its single attempt without incrementing the counter (shown
for the `createRhcConnections` goroutine body); in the sequential run mode
the failing attempt likewise increments no counter, but the loop retries
the same logical unit: one more attempt is recorded and the computation
continues exactly as if the failing attempt had never happened. -/
theorem failedUnit_drop_amended :
    (∀ o : UnitOutcome, unitSucceeds o = false → rhcConnectionTaskInc o = 0) ∧
    (∀ (target i : Nat) (o : UnitOutcome) (rest : List UnitOutcome),
      i < target → unitSucceeds o = false →
      createSourceLoopSeq target i (o :: rest) =
        ((createSourceLoopSeq target i rest).1 + 1, (createSourceLoopSeq target i rest).2)) := by
  constructor
  · intro o h
    rcases o with ⟨u, m, sd, um⟩
    cases u <;> cases m <;> cases sd <;> cases um <;>
      simp_all [unitSucceeds, rhcConnectionTaskInc]
  · intro target i o rest hlt hfail
    rw [createSourceLoopSeq, if_neg (by omega), hfail]
    simp

/-- Evaluation of the amended C8 statement at concrete inputs. -/
theorem failedUnit_drop_amended_witness :
    rhcConnectionTaskInc transportFailure = 0 ∧
    createSourceLoopSeq 1 0 [transportFailure] =
      ((createSourceLoopSeq 1 0 []).1 + 1, (createSourceLoopSeq 1 0 []).2) :=
  ⟨failedUnit_drop_amended.1 transportFailure (by decide),
   failedUnit_drop_amended.2 1 0 transportFailure [] (by decide) (by decide)⟩

/-! ## Claim C3 -/

/-- Claim C3. Counter-evidence evaluation: `lateDetachedSchedule` is a valid
interleaving of the configured run (1 tenant, 1 source, 1 application,
1 authentication per resource, 0 endpoints, 0 rhc connections, all-success
backend) — it respects every spawn, program-order and `WaitGroup`-join edge
of the code — and in it the final report reads the authentications counter
as `1`, not `2`: the application-level authentication task is spawned with
a bare `go` statement that no `WaitGroup` joins, so `main` can read the
aggregate counters before that child completes, although the full run does
perform both authentication increments. -/
theorem report_can_precede_detached_auth_task :
    ValidSchedule lateDetachedSchedule ∧
    authIncsBeforeReport lateDetachedSchedule = 1 ∧
    lateDetachedSchedule.countP isAuthInc = 2 := by
  refine ⟨⟨by decide, by decide⟩, by decide, by decide⟩

/-! ## Catalog invariants (towards claim C6) -/

theorem catalogConsistent_emptyDb (input : List RemoteSourceType) :
    CatalogConsistent input emptyDb := by
  constructor <;> intro p hp <;> simp [emptyDb] at hp

theorem namesFromInput_emptyDb (input : List RemoteSourceType) :
    NamesFromInput input emptyDb := by
  intro p hp
  simp [emptyDb] at hp

theorem createSourceType_consistent {input : List RemoteSourceType} {s : DbState}
    {i n : String} (hr : ∃ r ∈ input, r.id = i ∧ r.name = n)
    (hn : n ≠ "rh-marketplace") (hs : CatalogConsistent input s) :
    CatalogConsistent input (CreateSourceType s i n) := by
  obtain ⟨r, hrmem, hrid, hrname⟩ := hr
  constructor
  · intro p hp
    rcases mem_mapInsert hp with rfl | hp
    · exact ⟨rfl, r, hrmem, hrid, by simpa [hrname] using hn.symm ▸ hrname, hrname ▸ hn⟩
    · exact hs.1 p hp
  · intro q hq
    rcases mem_mapInsert hq with rfl | hq
    · exact key_mem_keys_mapInsert _ _ _
    · exact keys_subset_keys_mapInsert _ _ (hs.2 q hq)

theorem addAuthenticationType_consistent {input : List RemoteSourceType} {s : DbState}
    {i : String} (a : String) (hid : (mapLookup s.sourceTypes i).isSome)
    (hs : CatalogConsistent input s) :
    CatalogConsistent input (AddAuthenticationType s i a) := by
  obtain ⟨v, hv⟩ := Option.isSome_iff_exists.mp hid
  have hvd : mapLookupD s.sourceTypes i zeroSourceType = v := by
    simp [mapLookupD, hv]
  have hvmem : (i, v) ∈ s.sourceTypes := mem_of_mapLookup hv
  obtain ⟨hvid, hvr⟩ := hs.1 _ hvmem
  constructor
  · intro p hp
    simp only [AddAuthenticationType, hvd] at hp
    rcases mem_mapInsert hp with rfl | hp
    · exact ⟨hvid, hvr⟩
    · exact hs.1 p hp
  · intro q hq
    simp only [AddAuthenticationType, hvd] at hq ⊢
    exact keys_subset_keys_mapInsert _ _ (hs.2 q hq)

theorem addAuthenticationType_lookup_isSome (s : DbState) (i a : String) :
    (mapLookup (AddAuthenticationType s i a).sourceTypes i).isSome := by
  simp only [AddAuthenticationType]
  rw [mapLookup_insert_self]
  rfl

theorem addAuth_foldl_consistent {input : List RemoteSourceType} (auths : List String)
    {s : DbState} {i : String} (hid : (mapLookup s.sourceTypes i).isSome)
    (hs : CatalogConsistent input s) :
    CatalogConsistent input
      (auths.foldl (fun s' a => AddAuthenticationType s' i a) s) := by
  induction auths generalizing s with
  | nil => exact hs
  | cons a rest ih =>
      exact ih (addAuthenticationType_lookup_isSome s i a)
        (addAuthenticationType_consistent a hid hs)

theorem loadSourceTypes_consistent {input : List RemoteSourceType}
    (rs : List RemoteSourceType) {s : DbState} (hsub : ∀ r ∈ rs, r ∈ input)
    (hs : CatalogConsistent input s) :
    CatalogConsistent input (loadSourceTypes rs s) := by
  induction rs generalizing s with
  | nil => exact hs
  | cons r rest ih =>
      by_cases hm : r.name = "rh-marketplace"
      · simpa [loadSourceTypes, hm] using
          ih (fun x hx => hsub x (List.mem_cons_of_mem _ hx)) hs
      · have h1 : CatalogConsistent input (CreateSourceType s r.id r.name) :=
          createSourceType_consistent ⟨r, hsub r (List.mem_cons_self _ _), rfl, rfl⟩ hm hs
        have hpres : (mapLookup (CreateSourceType s r.id r.name).sourceTypes r.id).isSome := by
          simp only [CreateSourceType]
          rw [mapLookup_insert_self]
          rfl
        simpa [loadSourceTypes, hm] using
          ih (fun x hx => hsub x (List.mem_cons_of_mem _ hx))
            (addAuth_foldl_consistent r.auths hpres h1)

/-- Shape of one attach step: the name map is untouched and the source-type
map receives one write under the resolved (possibly zero) key, preserving
the `Id` and `Name` of the stored entry. -/
theorem attachStep_shape (s : DbState) (applicationTypeId : String)
    (supportedAuthenticationTypes : List (String × Option (List String)))
    (name : String) :
    (addCompatibleApplicationTypeStep s applicationTypeId supportedAuthenticationTypes
      name).sourceNameId = s.sourceNameId ∧
    ∃ u : SourceType,
      (addCompatibleApplicationTypeStep s applicationTypeId supportedAuthenticationTypes
        name).sourceTypes =
        mapInsert s.sourceTypes (mapLookupD s.sourceNameId name "") u ∧
      u.Id = (mapLookupD s.sourceTypes (mapLookupD s.sourceNameId name "")
        zeroSourceType).Id ∧
      u.Name = (mapLookupD s.sourceTypes (mapLookupD s.sourceNameId name "")
        zeroSourceType).Name := by
  simp only [addCompatibleApplicationTypeStep]
  split
  · exact ⟨rfl, _, rfl, rfl, rfl⟩
  · exact ⟨rfl, _, rfl, rfl, rfl⟩

theorem attachStep_consistent {input : List RemoteSourceType} {s : DbState}
    (applicationTypeId : String)
    (supportedAuthenticationTypes : List (String × Option (List String)))
    (name : String) (hres : (mapLookup s.sourceNameId name).isSome)
    (hs : CatalogConsistent input s) :
    CatalogConsistent input
      (addCompatibleApplicationTypeStep s applicationTypeId
        supportedAuthenticationTypes name) := by
  obtain ⟨i, hi⟩ := Option.isSome_iff_exists.mp hres
  have hkey : mapLookupD s.sourceNameId name "" = i := by simp [mapLookupD, hi]
  have hikeys : i ∈ s.sourceTypes.map Prod.fst :=
    hs.2 (name, i) (mem_of_mapLookup hi)
  obtain ⟨v, hv⟩ := mapLookup_isSome_of_mem_keys hikeys
  have hvd : mapLookupD s.sourceTypes i zeroSourceType = v := by simp [mapLookupD, hv]
  obtain ⟨hvid, hvr⟩ := hs.1 _ (mem_of_mapLookup hv)
  obtain ⟨hnames, u, hu, huid, huname⟩ :=
    attachStep_shape s applicationTypeId supportedAuthenticationTypes name
  constructor
  · intro p hp
    rw [hu, hkey] at hp
    rcases mem_mapInsert hp with rfl | hp
    · rw [hkey, hvd] at huid huname
      exact ⟨huid.trans hvid, by rw [huname]; exact hvr⟩
    · exact hs.1 p hp
  · intro q hq
    rw [hnames] at hq
    rw [hu, hkey]
    exact keys_subset_keys_mapInsert _ _ (hs.2 q hq)

theorem addCompatibleApplicationType_sourceNameId (s : DbState)
    (applicationTypeId : String) (names : List String)
    (supportedAuthenticationTypes : List (String × Option (List String))) :
    (AddCompatibleApplicationType s applicationTypeId names
      supportedAuthenticationTypes).sourceNameId = s.sourceNameId := by
  induction names generalizing s with
  | nil => rfl
  | cons n rest ih =>
      have h1 : AddCompatibleApplicationType s applicationTypeId (n :: rest)
          supportedAuthenticationTypes =
          AddCompatibleApplicationType
            (addCompatibleApplicationTypeStep s applicationTypeId
              supportedAuthenticationTypes n)
            applicationTypeId rest supportedAuthenticationTypes := rfl
      rw [h1, ih]
      exact (attachStep_shape s applicationTypeId supportedAuthenticationTypes n).1

theorem addCompatibleApplicationType_consistent {input : List RemoteSourceType}
    {s : DbState} (applicationTypeId : String) (names : List String)
    (supportedAuthenticationTypes : List (String × Option (List String)))
    (hres : ∀ n ∈ names, (mapLookup s.sourceNameId n).isSome)
    (hs : CatalogConsistent input s) :
    CatalogConsistent input
      (AddCompatibleApplicationType s applicationTypeId names
        supportedAuthenticationTypes) := by
  induction names generalizing s with
  | nil => exact hs
  | cons n rest ih =>
      have hstep := attachStep_consistent applicationTypeId
        supportedAuthenticationTypes n (hres n (List.mem_cons_self _ _)) hs
      have hnames := (attachStep_shape s applicationTypeId
        supportedAuthenticationTypes n).1
      exact ih (fun x hx => by
          rw [hnames]
          exact hres x (List.mem_cons_of_mem _ hx)) hstep

theorem runAttachCalls_consistent {input : List RemoteSourceType}
    (calls : List AttachCall) {s : DbState}
    (hres : ∀ c ∈ calls, ∀ n ∈ c.supportedSourceTypes,
      (mapLookup s.sourceNameId n).isSome)
    (hs : CatalogConsistent input s) :
    CatalogConsistent input (runAttachCalls s calls) := by
  induction calls generalizing s with
  | nil => exact hs
  | cons c rest ih =>
      have h1 := addCompatibleApplicationType_consistent c.applicationTypeId
        c.supportedSourceTypes c.supportedAuthenticationTypes
        (hres c (List.mem_cons_self _ _)) hs
      have hnames := addCompatibleApplicationType_sourceNameId s
        c.applicationTypeId c.supportedSourceTypes c.supportedAuthenticationTypes
      exact ih (fun c' hc' n hn => by
          rw [hnames]
          exact hres c' (List.mem_cons_of_mem _ hc') n hn) h1

theorem createSourceType_namesFromInput {input : List RemoteSourceType} {s : DbState}
    {i n : String} (hr : ∃ r ∈ input, r.name = n) (hn : n ≠ "rh-marketplace")
    (hs : NamesFromInput input s) : NamesFromInput input (CreateSourceType s i n) := by
  obtain ⟨r, hrmem, hrname⟩ := hr
  intro p hp
  rcases mem_mapInsert hp with rfl | hp
  · exact Or.inr ⟨r, hrmem, hrname, hrname ▸ hn⟩
  · exact hs p hp

theorem addAuthenticationType_namesFromInput {input : List RemoteSourceType}
    {s : DbState} (i a : String) (hs : NamesFromInput input s) :
    NamesFromInput input (AddAuthenticationType s i a) := by
  intro p hp
  simp only [AddAuthenticationType] at hp
  rcases mem_mapInsert hp with rfl | hp
  · cases hv : mapLookup s.sourceTypes i with
    | none => left; simp [mapLookupD, hv, zeroSourceType]
    | some v => simpa [mapLookupD, hv] using hs (i, v) (mem_of_mapLookup hv)
  · exact hs p hp

theorem loadSourceTypes_namesFromInput {input : List RemoteSourceType}
    (rs : List RemoteSourceType) {s : DbState} (hsub : ∀ r ∈ rs, r ∈ input)
    (hs : NamesFromInput input s) : NamesFromInput input (loadSourceTypes rs s) := by
  induction rs generalizing s with
  | nil => exact hs
  | cons r rest ih =>
      by_cases hm : r.name = "rh-marketplace"
      · simpa [loadSourceTypes, hm] using
          ih (fun x hx => hsub x (List.mem_cons_of_mem _ hx)) hs
      · have h1 : NamesFromInput input (CreateSourceType s r.id r.name) :=
          createSourceType_namesFromInput ⟨r, hsub r (List.mem_cons_self _ _), rfl⟩ hm hs
        have h2 : NamesFromInput input
            (r.auths.foldl (fun s' a => AddAuthenticationType s' r.id a)
              (CreateSourceType s r.id r.name)) := by
          generalize CreateSourceType s r.id r.name = s0 at h1
          induction r.auths generalizing s0 with
          | nil => exact h1
          | cons a arest ih2 =>
              exact ih2 _ (addAuthenticationType_namesFromInput r.id a h1)
        simpa [loadSourceTypes, hm] using
          ih (fun x hx => hsub x (List.mem_cons_of_mem _ hx)) h2

theorem attachStep_namesFromInput {input : List RemoteSourceType} {s : DbState}
    (applicationTypeId : String)
    (supportedAuthenticationTypes : List (String × Option (List String)))
    (name : String) (hs : NamesFromInput input s) :
    NamesFromInput input
      (addCompatibleApplicationTypeStep s applicationTypeId
        supportedAuthenticationTypes name) := by
  obtain ⟨-, u, hu, -, huname⟩ :=
    attachStep_shape s applicationTypeId supportedAuthenticationTypes name
  intro p hp
  rw [hu] at hp
  rcases mem_mapInsert hp with rfl | hp
  · rw [huname]
    generalize mapLookupD s.sourceNameId name "" = key at *
    cases hv : mapLookup s.sourceTypes key with
    | none => left; simp [mapLookupD, hv, zeroSourceType]
    | some v => simpa [mapLookupD, hv] using hs _ (mem_of_mapLookup hv)
  · exact hs p hp

theorem addCompatibleApplicationType_namesFromInput {input : List RemoteSourceType}
    {s : DbState} (applicationTypeId : String) (names : List String)
    (supportedAuthenticationTypes : List (String × Option (List String)))
    (hs : NamesFromInput input s) :
    NamesFromInput input
      (AddCompatibleApplicationType s applicationTypeId names
        supportedAuthenticationTypes) := by
  induction names generalizing s with
  | nil => exact hs
  | cons n rest ih =>
      exact ih (attachStep_namesFromInput applicationTypeId
        supportedAuthenticationTypes n hs)

theorem runAttachCalls_namesFromInput {input : List RemoteSourceType}
    (calls : List AttachCall) {s : DbState} (hs : NamesFromInput input s) :
    NamesFromInput input (runAttachCalls s calls) := by
  induction calls generalizing s with
  | nil => exact hs
  | cons c rest ih =>
      exact ih (addCompatibleApplicationType_namesFromInput c.applicationTypeId
        c.supportedSourceTypes c.supportedAuthenticationTypes hs)

/-- The source type returned by `GetRandomSourceType` is one of the stored
entries, keyed by some key of the map. -/
theorem getRandomSourceType_mem {s : DbState} {seed : Nat} {st : SourceType}
    (h : GetRandomSourceType s seed = some st) : ∃ k, (k, st) ∈ s.sourceTypes := by
  simp only [GetRandomSourceType] at h
  cases hr : randIntn seed (s.sourceTypes.map Prod.fst).length with
  | none => rw [hr] at h; exact absurd h (by simp)
  | some idx =>
      rw [hr] at h
      have hlt : idx < (s.sourceTypes.map Prod.fst).length := randIntn_lt hr
      have hkey : (s.sourceTypes.map Prod.fst).getD idx "" ∈ s.sourceTypes.map Prod.fst := by
        rw [List.getD_eq_getElem _ _ hlt]
        exact List.getElem_mem hlt
      obtain ⟨v, hv⟩ := mapLookup_isSome_of_mem_keys hkey
      have hval : mapLookupD s.sourceTypes
          ((s.sourceTypes.map Prod.fst).getD idx "") zeroSourceType = v := by
        simp only [mapLookupD, hv, Option.getD_some]
      have hst : st = v := (Option.some.inj h).symm.trans hval
      exact ⟨_, hst ▸ mem_of_mapLookup hv⟩

/-! ## Claim C6 -/

/-- Claim C6. Counterexample: load `rangeInput` (one source type
`("1", "openshift")`), then attach application type `"a"` with the
unresolved supported name `"bad"`.  `GetRandomSourceType` can now return
the phantom entry created under the zero key: its name `""` (and id `""`)
occur nowhere in the load input, refuting "every value `GetRandomSourceType`
can return is a source type present in the source-type load input" for
arbitrary attachment sequences. -/
theorem getRandomSourceType_phantom_counterexample :
    GetRandomSourceType dbRange 1 =
      some { Id := "", Name := "", CompatibleAuthentications := none,
             CompatibleApplicationTypes := some [("a", ⟨"a", none⟩)] } ∧
    "" ∉ rangeInput.map RemoteSourceType.name ∧
    "" ∉ rangeInput.map RemoteSourceType.id := by
  refine ⟨rfl, by decide, by decide⟩

/-- Claim C6, amended. After any catalog build, every value
`GetRandomSourceType` returns has a name other than the policy-excluded
`"rh-marketplace"` (that name is never inserted); and under the additional
hypothesis that every attached supported source name resolves in the name
map produced by the load (attachments never modify that map), every
returned value is an entry of the source-type load input. -/
theorem getRandomSourceType_amended (input : List RemoteSourceType)
    (calls : List AttachCall) (seed : Nat) (st : SourceType)
    (h : GetRandomSourceType (buildCatalog input calls) seed = some st) :
    st.Name ≠ "rh-marketplace" ∧
    ((∀ c ∈ calls, ∀ n ∈ c.supportedSourceTypes,
        (mapLookup (loadSourceTypes input emptyDb).sourceNameId n).isSome) →
      ∃ r ∈ input, r.id = st.Id ∧ r.name = st.Name) := by
  obtain ⟨k, hk⟩ := getRandomSourceType_mem h
  constructor
  · have hnames : NamesFromInput input (buildCatalog input calls) :=
      runAttachCalls_namesFromInput _
        (loadSourceTypes_namesFromInput input (fun r hr => hr)
          (namesFromInput_emptyDb input))
    rcases hnames _ hk with hz | ⟨r, -, hrn, hmk⟩
    · rw [hz]
      decide
    · rw [← hrn]
      exact hmk
  · intro hres
    have hcons : CatalogConsistent input (buildCatalog input calls) :=
      runAttachCalls_consistent calls hres
        (loadSourceTypes_consistent input (fun r hr => hr)
          (catalogConsistent_emptyDb input))
    obtain ⟨hid, r, hrmem, hrid, hrname, -⟩ := hcons.1 _ hk
    exact ⟨r, hrmem, by rw [hrid, hid], hrname⟩

/-! ## Gate lemmas (towards claim C4) -/

theorem validRemainder_init (o : ReqOutcome) :
    validRemainder (sendCreationRequestGateOps o) := by
  cases o <;> simp [sendCreationRequestGateOps, validRemainder]

theorem holdsSlot_init (o : ReqOutcome) :
    holdsSlot (sendCreationRequestGateOps o) = false := by
  cases o <;> decide

theorem gateInv_init (C : Nat) (outcomes : List ReqOutcome) :
    GateInv C (outcomes.map sendCreationRequestGateOps, 0) := by
  refine ⟨?_, ?_, Nat.zero_le C⟩
  · intro l hl
    rcases List.mem_map.mp hl with ⟨o, -, rfl⟩
    exact validRemainder_init o
  · symm
    rw [List.countP_eq_zero]
    intro l hl
    rcases List.mem_map.mp hl with ⟨o, -, rfl⟩
    simp [holdsSlot_init o]

theorem gateInv_preserved {C : Nat} {s t : GateSys} (h : GateStep C s t)
    (hinv : GateInv C s) : GateInv C t := by
  obtain ⟨hval, hcount, hle⟩ := hinv
  cases h with
  | acq ts₁ ts₂ l occ hlt =>
      have hvr : validRemainder (GateOp.acq :: l) :=
        hval _ (List.mem_append_right _ (List.mem_cons_self _ _))
      have hl : l = [GateOp.rel] ∨ l = [GateOp.callBegin, GateOp.callEnd, GateOp.rel] := by
        rcases hvr with h|h|h|h|h|h <;> simp_all [validRemainder]
      refine ⟨?_, ?_, by omega⟩
      · intro x hx
        rcases List.mem_append.mp hx with hx | hx
        · exact hval x (List.mem_append_left _ hx)
        · rcases List.mem_cons.mp hx with rfl | hx
          · rcases hl with rfl | rfl <;> simp [validRemainder]
          · exact hval x (List.mem_append_right _ (List.mem_cons_of_mem _ hx))
      · have h1 : holdsSlot (GateOp.acq :: l) = false := by
          rcases hl with rfl | rfl <;> decide
        have h2 : holdsSlot l = true := by
          rcases hl with rfl | rfl <;> decide
        simp [List.countP_append, List.countP_cons, h1] at hcount
        simp [List.countP_append, List.countP_cons, h2]
        omega
  | callBegin ts₁ ts₂ l occ =>
      have hvr : validRemainder (GateOp.callBegin :: l) :=
        hval _ (List.mem_append_right _ (List.mem_cons_self _ _))
      have hl : l = [GateOp.callEnd, GateOp.rel] := by
        rcases hvr with h|h|h|h|h|h <;> simp_all [validRemainder]
      subst hl
      refine ⟨?_, ?_, hle⟩
      · intro x hx
        rcases List.mem_append.mp hx with hx | hx
        · exact hval x (List.mem_append_left _ hx)
        · rcases List.mem_cons.mp hx with rfl | hx
          · simp [validRemainder]
          · exact hval x (List.mem_append_right _ (List.mem_cons_of_mem _ hx))
      · simp only [List.countP_append, List.countP_cons] at hcount ⊢
        have h1 : holdsSlot [GateOp.callBegin, GateOp.callEnd, GateOp.rel] = true := by decide
        have h2 : holdsSlot [GateOp.callEnd, GateOp.rel] = true := by decide
        rw [h1] at hcount
        rw [h2]
        omega
  | callEnd ts₁ ts₂ l occ =>
      have hvr : validRemainder (GateOp.callEnd :: l) :=
        hval _ (List.mem_append_right _ (List.mem_cons_self _ _))
      have hl : l = [GateOp.rel] := by
        rcases hvr with h|h|h|h|h|h <;> simp_all [validRemainder]
      subst hl
      refine ⟨?_, ?_, hle⟩
      · intro x hx
        rcases List.mem_append.mp hx with hx | hx
        · exact hval x (List.mem_append_left _ hx)
        · rcases List.mem_cons.mp hx with rfl | hx
          · simp [validRemainder]
          · exact hval x (List.mem_append_right _ (List.mem_cons_of_mem _ hx))
      · simp only [List.countP_append, List.countP_cons] at hcount ⊢
        have h1 : holdsSlot [GateOp.callEnd, GateOp.rel] = true := by decide
        have h2 : holdsSlot [GateOp.rel] = true := by decide
        rw [h1] at hcount
        rw [h2]
        omega
  | rel ts₁ ts₂ l occ hpos =>
      have hvr : validRemainder (GateOp.rel :: l) :=
        hval _ (List.mem_append_right _ (List.mem_cons_self _ _))
      have hl : l = [] := by
        rcases hvr with h|h|h|h|h|h <;> simp_all [validRemainder]
      subst hl
      refine ⟨?_, ?_, by omega⟩
      · intro x hx
        rcases List.mem_append.mp hx with hx | hx
        · exact hval x (List.mem_append_left _ hx)
        · rcases List.mem_cons.mp hx with rfl | hx
          · simp [validRemainder]
          · exact hval x (List.mem_append_right _ (List.mem_cons_of_mem _ hx))
      · have h1 : holdsSlot [GateOp.rel] = true := by decide
        have h2 : holdsSlot ([] : List GateOp) = false := by decide
        simp [List.countP_append, List.countP_cons, h1] at hcount
        simp [List.countP_append, List.countP_cons, h2]
        omega

theorem gateInv_reachable {C : Nat} {outcomes : List ReqOutcome} {s : GateSys}
    (h : GateReachable C outcomes s) : GateInv C s := by
  induction h with
  | refl => exact gateInv_init C outcomes
  | tail _ hstep ih => exact gateInv_preserved hstep ih

theorem inFlight_imp_holdsSlot {l : List GateOp} (hv : validRemainder l)
    (hf : inFlight l = true) : holdsSlot l = true := by
  rcases hv with rfl|rfl|rfl|rfl|rfl|rfl <;> revert hf <;> decide

/-! ## Claim C4 -/

/-- Claim C4. The admission-gate discipline of the concurrent
`sendCreationRequest`: (1) on every outcome — request-building failure,
transport error, body-read or body-close failure, bad status, or success —
the trace acquires exactly one gate slot, releases exactly one, and the
release is the last gate action, so every exit path releases the slot it
acquired; (2) for every configuration, i.e. every capacity `C` with which
`config.ParseConfig` can initialize the `ConcurrentRequests` channel from
the `CONCURRENT_REQUESTS` environment variable, every set of tasks and
every reachable interleaving of their steps, the number of calls
simultaneously in flight never exceeds `C`. -/
theorem sendCreationRequest_gate_discipline :
    (∀ o : ReqOutcome,
      (sendCreationRequestGateOps o).count GateOp.acq = 1 ∧
      (sendCreationRequestGateOps o).count GateOp.rel = 1 ∧
      (sendCreationRequestGateOps o).getLast? = some GateOp.rel) ∧
    (∀ (env : Option (Option Int)) (C : Nat) (outcomes : List ReqOutcome)
      (s : GateSys),
      concurrentRequestsCapacity env = some C →
      GateReachable C outcomes s → s.1.countP inFlight ≤ C) := by
  constructor
  · intro o
    cases o <;> exact ⟨by decide, by decide, by decide⟩
  · intro env C outcomes s hcap h
    obtain ⟨hval, hcount, hle⟩ := gateInv_reachable h
    calc s.1.countP inFlight
        ≤ s.1.countP holdsSlot :=
          List.countP_mono_left (fun x hx => inFlight_imp_holdsSlot (hval x hx))
      _ = s.2 := hcount.symm
      _ ≤ C := hle

/-- Evaluation of the C4 statement on a concrete reachable state: one task
under the capacity 1 that `CONCURRENT_REQUESTS=1` configures, after its
gate acquisition. -/
theorem sendCreationRequest_gate_discipline_witness :
    ([[GateOp.callBegin, GateOp.callEnd, GateOp.rel]] : List (List GateOp)).countP
      inFlight ≤ 1 :=
  sendCreationRequest_gate_discipline.2 (some (some 1)) 1 [ReqOutcome.created]
    ([[GateOp.callBegin, GateOp.callEnd, GateOp.rel]], 1)
    (by decide)
    (Relation.ReflTransGen.single
      (GateStep.acq [] [] [GateOp.callBegin, GateOp.callEnd, GateOp.rel] 0 (by decide)))

/-- Evaluation of the amended C6 statement at a concrete input where the
single attachment resolves. -/
theorem getRandomSourceType_amended_witness :
    (mapLookupD (buildCatalog rangeInput [⟨"a", ["openshift"], []⟩]).sourceTypes "1"
        zeroSourceType).Name ≠ "rh-marketplace" ∧
    ∃ r ∈ rangeInput, r.id = "1" ∧ r.name = "openshift" := by
  have h := getRandomSourceType_amended rangeInput [⟨"a", ["openshift"], []⟩] 0
    { Id := "1", Name := "openshift", CompatibleAuthentications := some ["token"],
      CompatibleApplicationTypes := some [("a", ⟨"a", none⟩)] } rfl
  exact ⟨by decide, h.2 (by decide)⟩

end SourcesPopulator
